import Mathlib

/-!
Shallow embedding of the chunked-download and decryption engine of
librespot-python (files `librespot/audio/decrypt/AesAudioDecrypt.py` and
`librespot/audio/cdn/CdnManager.py`), together with theorems checking the
natural-language specification against it.

Bytes are modelled as `List Nat`, Python `int` as `Int`/`Nat` (Python
integers are arbitrary precision), and Python exceptions as the `Except`
monad.  External collaborators (the AES cipher of pycryptodome, the HTTP
client) are abstracted as explicit function parameters or response records.
-/

namespace Librespot

/-! ### AesAudioDecrypt (`librespot/audio/decrypt/AesAudioDecrypt.py`) -/

/-- Embedding of the class attribute `audio_aes_iv` (the fixed 16-byte IV). -/
def audio_aes_iv : List Nat :=
  [0x72, 0xE0, 0x67, 0xFB, 0xDD, 0xCB, 0xCF, 0x77,
   0xEB, 0xE8, 0xBC, 0x64, 0x3F, 0x63, 0x0D, 0x93]

/-- Embedding of `iv_int = int.from_bytes(audio_aes_iv, "big")`. -/
def iv_int : Nat := audio_aes_iv.foldl (fun a b => a * 256 + b) 0

/-- Embedding of the class attribute `iv_diff = 0x100`. -/
def iv_diff : Nat := 0x100

/-- Embedding of the `for i in range(0, len(buffer), 4096)` loop of
`AesAudioDecrypt.decrypt_chunk`.  The pycryptodome AES-CTR cipher is
abstracted as `cipher : Nat → List Nat → List Nat`, taking the initial
counter value (the cipher is freshly instantiated at counter `iv` for every
sub-block, exactly as `AES.new(..., counter=Counter.new(128, initial_value=iv))`
is in the source) and the data.  The source's locals
`count = min(4096, len(buffer) - i)` and `decrypted_buffer` are inlined
(`buffer[i:i+count]` of the i-th iteration is `take (min 4096 rest.length)`
of the remaining buffer).  A decrypted sub-block whose length differs from
`count` raises `RuntimeError`, modelled as `Except.error`; the counter is
advanced by `iv_diff` between iterations. -/
def decryptLoop (cipher : Nat → List Nat → List Nat) (iv : Nat)
    (buffer : List Nat) : Except String (List Nat) :=
  if _h : buffer.length = 0 then .ok []
  else
    if (cipher iv (buffer.take (min 4096 buffer.length))).length
        ≠ min 4096 buffer.length then
      .error ("Couldn't process all data, actual: "
        ++ toString (cipher iv (buffer.take (min 4096 buffer.length))).length
        ++ ", expected: " ++ toString (min 4096 buffer.length))
    else
      (decryptLoop cipher (iv + iv_diff)
        (buffer.drop (min 4096 buffer.length))).map
        (fun rest => cipher iv (buffer.take (min 4096 buffer.length)) ++ rest)
termination_by buffer.length
decreasing_by simp only [List.length_drop]; omega

/-- Embedding of `AesAudioDecrypt.decrypt_chunk`.  The starting counter is
`iv_int + int(CHUNK_SIZE * chunk_index / 16)`; Python's `int(x / 16)` on the
non-negative product is floor division (the float quotient is exact for all
inputs the program meets, since the real `CHUNK_SIZE` is a multiple of 16),
modelled as `Nat` division.  `ChannelManager.CHUNK_SIZE` lives outside the
two source files, so the chunk size is a parameter. -/
def decrypt_chunk (cipher : Nat → List Nat → List Nat)
    (chunkSize chunkIndex : Nat) (buffer : List Nat) :
    Except String (List Nat) :=
  decryptLoop cipher (iv_int + chunkSize * chunkIndex / 16) buffer

/-- Decomposition of a buffer into the consecutive 4096-byte sub-blocks the
loop of `decrypt_chunk` walks over (the last sub-block may be shorter). -/
def subBlocks (buffer : List Nat) : List (List Nat) :=
  if _h : buffer.length = 0 then []
  else buffer.take 4096 :: subBlocks (buffer.drop 4096)
termination_by buffer.length
decreasing_by simp only [List.length_drop]; omega

/-- Reference counter schedule: decrypt each sub-block with a cipher freshly
initialized at the current counter, advancing the counter by 256 between
consecutive sub-blocks. -/
def ctrJoin (cipher : Nat → List Nat → List Nat) (iv : Nat) :
    List (List Nat) → List Nat
  | [] => []
  | sb :: rest => cipher iv sb ++ ctrJoin cipher (iv + 256) rest

theorem take_min_length {α : Type} (l : List α) (n : Nat) :
    l.take (min n l.length) = l.take n := by
  rcases Nat.le_total n l.length with h | h
  · rw [Nat.min_eq_left h]
  · rw [Nat.min_eq_right h, List.take_length]
    exact (List.take_of_length_le h).symm

theorem drop_min_length {α : Type} (l : List α) (n : Nat) :
    l.drop (min n l.length) = l.drop n := by
  rcases Nat.le_total n l.length with h | h
  · rw [Nat.min_eq_left h]
  · rw [Nat.min_eq_right h, List.drop_length]
    exact (List.drop_of_length_le h).symm

theorem subBlocks_flatten_aux : ∀ (n : Nat) (buffer : List Nat),
    buffer.length ≤ n → (subBlocks buffer).flatten = buffer := by
  intro n
  induction n with
  | zero =>
    intro buffer hb
    have hnil : buffer = [] := List.length_eq_zero.mp (Nat.le_zero.mp hb)
    subst hnil
    rw [subBlocks]
    simp
  | succ m ih =>
    intro buffer hb
    rw [subBlocks]
    by_cases h : buffer.length = 0
    · rw [dif_pos h]
      exact (List.length_eq_zero.mp h).symm
    · rw [dif_neg h, List.flatten_cons,
        ih (buffer.drop 4096) (by simp only [List.length_drop]; omega)]
      exact List.take_append_drop 4096 buffer

/-- The sub-block decomposition is exactly a partition of the buffer. -/
theorem subBlocks_flatten (buffer : List Nat) :
    (subBlocks buffer).flatten = buffer :=
  subBlocks_flatten_aux buffer.length buffer le_rfl

theorem subBlocks_length_le_aux : ∀ (n : Nat) (buffer : List Nat),
    buffer.length ≤ n → ∀ sb ∈ subBlocks buffer, sb.length ≤ 4096 := by
  intro n
  induction n with
  | zero =>
    intro buffer hb
    have hnil : buffer = [] := List.length_eq_zero.mp (Nat.le_zero.mp hb)
    subst hnil
    rw [subBlocks]
    simp
  | succ m ih =>
    intro buffer hb
    rw [subBlocks]
    by_cases h : buffer.length = 0
    · rw [dif_pos h]
      simp
    · rw [dif_neg h]
      intro sb hsb
      rcases List.mem_cons.mp hsb with rfl | hmem
      · simp only [List.length_take]
        omega
      · exact ih (buffer.drop 4096) (by simp only [List.length_drop]; omega)
          sb hmem

/-- Every sub-block has length at most 4096. -/
theorem subBlocks_length_le (buffer : List Nat) :
    ∀ sb ∈ subBlocks buffer, sb.length ≤ 4096 :=
  subBlocks_length_le_aux buffer.length buffer le_rfl

theorem decryptLoop_ok_aux (cipher : Nat → List Nat → List Nat)
    (hlen : ∀ c d, (cipher c d).length = d.length) :
    ∀ (n : Nat) (buffer : List Nat), buffer.length ≤ n → ∀ iv,
      decryptLoop cipher iv buffer
        = .ok (ctrJoin cipher iv (subBlocks buffer)) := by
  intro n
  induction n with
  | zero =>
    intro buffer hb iv
    have hnil : buffer = [] := List.length_eq_zero.mp (Nat.le_zero.mp hb)
    subst hnil
    rw [decryptLoop, subBlocks]
    simp [ctrJoin]
  | succ m ih =>
    intro buffer hb iv
    by_cases h : buffer.length = 0
    · have hnil : buffer = [] := List.length_eq_zero.mp h
      subst hnil
      rw [decryptLoop, subBlocks]
      simp [ctrJoin]
    · rw [decryptLoop, dif_neg h, subBlocks, dif_neg h]
      have hcount : (cipher iv (buffer.take (min 4096 buffer.length))).length
          = min 4096 buffer.length := by
        rw [hlen, List.length_take]
        omega
      rw [if_neg (by rw [hcount]; exact fun hne => hne rfl)]
      rw [take_min_length, drop_min_length]
      rw [ih (buffer.drop 4096) (by simp only [List.length_drop]; omega)
        (iv + iv_diff)]
      rw [ctrJoin]
      rfl

theorem decryptLoop_ok_lengths_aux (cipher : Nat → List Nat → List Nat) :
    ∀ (n : Nat) (buffer : List Nat), buffer.length ≤ n → ∀ iv r,
      decryptLoop cipher iv buffer = .ok r →
      ∀ k (hk : k < (subBlocks buffer).length),
        (cipher (iv + 256 * k) ((subBlocks buffer).get ⟨k, hk⟩)).length
          = ((subBlocks buffer).get ⟨k, hk⟩).length := by
  intro n
  induction n with
  | zero =>
    intro buffer hb iv r _ k hk
    have hnil : buffer = [] := List.length_eq_zero.mp (Nat.le_zero.mp hb)
    subst hnil
    rw [subBlocks] at hk
    simp at hk
  | succ m ih =>
    intro buffer hb iv r hok k hk
    by_cases h : buffer.length = 0
    · exfalso
      have hnil : buffer = [] := List.length_eq_zero.mp h
      subst hnil
      rw [subBlocks] at hk
      simp at hk
    · rw [decryptLoop, dif_neg h] at hok
      by_cases hclen : (cipher iv (buffer.take (min 4096 buffer.length))).length
          = min 4096 buffer.length
      · rw [if_neg (by rw [hclen]; exact fun hne => hne rfl)] at hok
        rw [drop_min_length] at hok
        cases hrec : decryptLoop cipher (iv + iv_diff) (buffer.drop 4096) with
        | error e =>
          rw [hrec] at hok
          exact absurd hok (by simp [Except.map])
        | ok r' =>
          have ihall := ih (buffer.drop 4096)
            (by simp only [List.length_drop]; omega) (iv + iv_diff) r' hrec
          have hsb : subBlocks buffer
              = buffer.take 4096 :: subBlocks (buffer.drop 4096) := by
            rw [subBlocks, dif_neg h]
          cases k with
          | zero =>
            have h0 : (subBlocks buffer).get ⟨0, hk⟩ = buffer.take 4096 := by
              rw [List.get_of_eq hsb]
              rfl
            rw [h0, Nat.mul_zero, Nat.add_zero,
              ← take_min_length buffer 4096, hclen, List.length_take]
            omega
          | succ j =>
            have hj : j < (subBlocks (buffer.drop 4096)).length := by
              have hk' := hk
              rw [hsb] at hk'
              simpa using Nat.lt_of_succ_lt_succ hk'
            have hget : (subBlocks buffer).get ⟨j + 1, hk⟩
                = (subBlocks (buffer.drop 4096)).get ⟨j, hj⟩ := by
              rw [List.get_of_eq hsb]
              rfl
            rw [hget]
            have hstep := ihall j hj
            have hivd : iv + iv_diff + 256 * j = iv + 256 * (j + 1) := by
              simp only [iv_diff]
              omega
            rw [hivd] at hstep
            exact hstep
      · rw [if_pos hclen] at hok
        exact absurd hok (by simp)

theorem ctrJoin_get (cipher : Nat → List Nat → List Nat) :
    ∀ (sbs : List (List Nat)) (iv : Nat) (k : Nat) (hk : k < sbs.length),
      ctrJoin cipher iv sbs
        = ctrJoin cipher iv (sbs.take k)
          ++ cipher (iv + 256 * k) (sbs.get ⟨k, hk⟩)
          ++ ctrJoin cipher (iv + 256 * (k + 1)) (sbs.drop (k + 1)) := by
  intro sbs
  induction sbs with
  | nil =>
    intro iv k hk
    simp at hk
  | cons hd tl ihtl =>
    intro iv k hk
    cases k with
    | zero =>
      simp only [List.take_zero, List.drop_one, ctrJoin, Nat.mul_zero,
        Nat.add_zero, Nat.mul_one, List.nil_append]
      rfl
    | succ j =>
      have hj : j < tl.length := Nat.lt_of_succ_lt_succ hk
      have := ihtl (iv + 256) j hj
      show cipher iv hd ++ ctrJoin cipher (iv + 256) tl = _
      rw [this]
      show _ = cipher iv hd ++ ctrJoin cipher (iv + 256) (tl.take j)
          ++ cipher (iv + 256 * (j + 1)) (tl.get ⟨j, hj⟩)
          ++ ctrJoin cipher (iv + 256 * (j + 1 + 1)) (tl.drop (j + 1))
      have h1 : iv + 256 + 256 * j = iv + 256 * (j + 1) := by omega
      have h2 : iv + 256 + 256 * (j + 1) = iv + 256 * (j + 1 + 1) := by omega
      rw [h1, h2, List.append_assoc, List.append_assoc, List.append_assoc]

/-- Claim C1: for every chunk index and ciphertext, `decrypt_chunk` of the
AES-CTR variant starts the counter at `iv_int + CHUNK_SIZE * chunkIndex / 16`
(the IV as a 128-bit integer plus `floor(CHUNK_SIZE * i / 16)`), processes
the ciphertext in consecutive 4096-byte sub-blocks (the last may be shorter:
they flatten back to the ciphertext and each is at most 4096 bytes long),
instantiates a fresh counter-mode cipher at the current counter value for
each sub-block, and advances the counter by exactly 256 between consecutive
sub-blocks, so the cipher for the k-th sub-block is initialized to
`start + k * 256`.  The hypothesis states that the abstract AES-CTR cipher
is length-preserving (true of real AES-CTR). -/
theorem decrypt_chunk_counter_schedule (cipher : Nat → List Nat → List Nat)
    (chunkSize chunkIndex : Nat) (buffer : List Nat)
    (hlen : ∀ c d, (cipher c d).length = d.length) :
    decrypt_chunk cipher chunkSize chunkIndex buffer
      = .ok (ctrJoin cipher (iv_int + chunkSize * chunkIndex / 16)
          (subBlocks buffer))
    ∧ (subBlocks buffer).flatten = buffer
    ∧ (∀ sb ∈ subBlocks buffer, sb.length ≤ 4096)
    ∧ ∀ k (hk : k < (subBlocks buffer).length),
        ctrJoin cipher (iv_int + chunkSize * chunkIndex / 16) (subBlocks buffer)
          = ctrJoin cipher (iv_int + chunkSize * chunkIndex / 16)
              ((subBlocks buffer).take k)
            ++ cipher (iv_int + chunkSize * chunkIndex / 16 + 256 * k)
                ((subBlocks buffer).get ⟨k, hk⟩)
            ++ ctrJoin cipher
                (iv_int + chunkSize * chunkIndex / 16 + 256 * (k + 1))
                ((subBlocks buffer).drop (k + 1)) :=
  ⟨decryptLoop_ok_aux cipher hlen buffer.length buffer le_rfl _,
   subBlocks_flatten buffer,
   subBlocks_length_le buffer,
   fun k hk => ctrJoin_get cipher (subBlocks buffer) _ k hk⟩

/-- Witness for C1 at a concrete length-preserving cipher and input. -/
theorem decrypt_chunk_counter_schedule_witness :
    decrypt_chunk (fun _ d => d.map (fun b => b + 1)) 131072 3 [10, 20, 30]
      = .ok (ctrJoin (fun _ d => d.map (fun b => b + 1))
          (iv_int + 131072 * 3 / 16) (subBlocks [10, 20, 30]))
    ∧ decrypt_chunk (fun _ d => d.map (fun b => b + 1)) 131072 3 [10, 20, 30]
      = .ok [11, 21, 31] :=
  ⟨(decrypt_chunk_counter_schedule (fun _ d => d.map (fun b => b + 1))
      131072 3 [10, 20, 30] (fun _ d => by simp)).1,
   by simp [decrypt_chunk, decryptLoop, iv_diff, Except.map]⟩

/-- Claim C7: if some sub-block's decrypted length differs from that
sub-block's length, `decrypt_chunk` raises (returns `Except.error`) rather
than returning a result. -/
theorem decrypt_chunk_length_mismatch (cipher : Nat → List Nat → List Nat)
    (chunkSize chunkIndex : Nat) (buffer : List Nat)
    (hbad : ¬ ∀ k (hk : k < (subBlocks buffer).length),
        (cipher (iv_int + chunkSize * chunkIndex / 16 + 256 * k)
          ((subBlocks buffer).get ⟨k, hk⟩)).length
          = ((subBlocks buffer).get ⟨k, hk⟩).length) :
    ∃ e, decrypt_chunk cipher chunkSize chunkIndex buffer = .error e := by
  cases hres : decrypt_chunk cipher chunkSize chunkIndex buffer with
  | error e => exact ⟨e, rfl⟩
  | ok r =>
    exact absurd
      (decryptLoop_ok_lengths_aux cipher buffer.length buffer le_rfl
        (iv_int + chunkSize * chunkIndex / 16) r hres) hbad

/-- Witness for C7: a cipher that always returns the empty list mismatches on
a non-empty sub-block, so decryption errors out. -/
theorem decrypt_chunk_length_mismatch_witness :
    ∃ e, decrypt_chunk (fun _ _ => []) 131072 0 [1, 2, 3] = .error e :=
  decrypt_chunk_length_mismatch (fun _ _ => []) 131072 0 [1, 2, 3]
    (by
      intro hall
      have hsb : subBlocks [1, 2, 3] = [[1, 2, 3]] := by
        simp [subBlocks]
      have h0 : 0 < (subBlocks [1, 2, 3]).length := by
        rw [hsb]
        simp
      have hget : (subBlocks [1, 2, 3]).get ⟨0, h0⟩ = [1, 2, 3] := by
        rw [List.get_of_eq hsb]
        rfl
      have hstep := hall 0 h0
      rw [hget] at hstep
      simp at hstep)

/-! ### CdnManager.CdnUrl (`librespot/audio/cdn/CdnManager.py`)

Strings manipulated by `set_url` are modelled as `List Char` so that every
operation is structurally recursive and computable by reduction.  All the
separators the source splits on (`#`, `?`, `&`, `=`, `~`, `_`, `/`) are
single characters, so Python `str.split(sep)` is modelled by `splitChar`. -/

/-- Python `s.split(sep)` for a single-character separator: `splitChar c l`
always returns at least one (possibly empty) piece, and adjacent separators
produce empty pieces, exactly like Python's `str.split` with an explicit
separator. -/
def splitChar (sep : Char) : List Char → List (List Char)
  | [] => [[]]
  | c :: rest =>
    if c = sep then [] :: splitChar sep rest
    else
      match splitChar sep rest with
      | [] => [[c]]
      | h :: t => (c :: h) :: t

/-- Python `sep.join(pieces)` for a single-character separator. -/
def joinChar (sep : Char) : List (List Char) → List Char
  | [] => []
  | [x] => x
  | x :: y :: t => x ++ sep :: joinChar sep (y :: t)

/-- Embedding of the query extraction of `urllib.parse.urlparse(url).query`:
the standard library strips the fragment at the first `#`, then the query is
everything after the first `?` of what remains. -/
def urlQuery (url : String) : List Char :=
  let noFrag :=
    match splitChar '#' url.toList with
    | [] => url.toList
    | s :: _ => s
  match splitChar '?' noFrag with
  | _ :: q :: qs => joinChar '?' (q :: qs)
  | _ => []

/-- Embedding of one field of `urllib.parse.parse_qs`: a `name=value` pair is
split at the first `=` (the value keeps any further `=`); fields without `=`
and fields with an empty value are dropped (`keep_blank_values` is left at
its default `False`).  The standard library additionally percent-decodes
names and values; the token queries this code meets carry no percent-escapes,
so decoding is not modelled. -/
def fieldValue (field : List Char) : Option (List Char × List Char) :=
  match splitChar '=' field with
  | n :: v :: vs =>
    let value := joinChar '=' (v :: vs)
    if value = [] then none else some (n, value)
  | _ => none

/-- Embedding of
`token_query = urllib.parse.parse_qs(token_url.query)` followed by
`token_list = token_query.get("__token__")` and
`token_str = str(token_list[0])` with the `TypeError` fallback to `""`:
the first `__token__` value of the query (`parse_qs` splits the query on
`&`), or `""` when the parameter is absent. -/
def tokenString (query : List Char) : List Char :=
  match ((splitChar '&' query).filterMap fieldValue).filter
      (fun p => p.1 = "__token__".toList) with
  | [] => []
  | p :: _ => p.2

/-- Embedding of the `for s in split: ...` loop over `token_str.split("~")`:
the first segment that contains `=` and whose part before the first `=` is
`"exp"` yields the part after that first `=` (the loop `break`s there);
otherwise the loop falls through with `expire_at = None`. -/
def findExp : List (List Char) → Option (List Char)
  | [] => none
  | s :: rest =>
    match splitChar '=' s with
    | pre :: v :: vs =>
      if pre = "exp".toList then some (joinChar '=' (v :: vs))
      else findExp rest
    | _ => findExp rest

/-- Digit-string value for Python `int`: a non-empty all-ASCII-digit string
evaluated in base 10, `none` otherwise. -/
def digitsVal (l : List Char) : Option Nat :=
  if l = [] then none
  else if l.all Char.isDigit then
    some (l.foldl (fun a c => a * 10 + (c.toNat - 48)) 0)
  else none

/-- Embedding of Python `int(s)`: an optional sign then decimal digits;
anything else raises `ValueError`, modelled as `none`.  (Python also strips
surrounding whitespace and allows `_` digit grouping and Unicode digits;
none of the strings this code parses use those.) -/
def pyInt (s : List Char) : Option Int :=
  match s with
  | '-' :: rest => (digitsVal rest).map (fun n => -(n : Int))
  | '+' :: rest => (digitsVal rest).map (fun n => (n : Int))
  | l => (digitsVal l).map (fun n => (n : Int))

/-- Embedding of `try: i = token_url.query.index("_") ...`: the part of the
query before its first `_`, or `none` when the query has no `_` (the
`ValueError` branch of `.index`). -/
def partBeforeUnderscore (q : List Char) : Option (List Char) :=
  match splitChar '_' q with
  | pre :: _ :: _ => some pre
  | _ => none

/-- State of a `CdnManager.CdnUrl` object: the optional owning file id
(bytes), the stored URL and the expiration timestamp in epoch milliseconds
(`-1` meaning never). -/
structure CdnUrl where
  fileId : Option (List Nat)
  url : String
  expiration : Int
deriving DecidableEq, Repr

/-- Embedding of `CdnUrl.set_url` (also the body of `CdnUrl.__init__`, which
just calls it).  An uncaught `ValueError` from `int(...)` is `Except.error`;
the two warning-and-return branches set `expiration = -1` and succeed. -/
def set_url (fileId : Option (List Nat)) (url : String) : Except String CdnUrl :=
  match fileId with
  | none => .ok { fileId := none, url := url, expiration := -1 }
  | some f =>
    let query := urlQuery url
    let tokenStr := tokenString query
    if tokenStr ≠ "None".toList ∧ tokenStr.length ≠ 0 then
      match findExp (splitChar '~' tokenStr) with
      | none => .ok { fileId := some f, url := url, expiration := -1 }
      | some v =>
        match pyInt v with
        | none => .error "ValueError: invalid literal for int() with base 10"
        | some n => .ok { fileId := some f, url := url, expiration := n * 1000 }
    else
      match partBeforeUnderscore query with
      | none => .ok { fileId := some f, url := url, expiration := -1 }
      | some pre =>
        match pyInt pre with
        | none => .error "ValueError: invalid literal for int() with base 10"
        | some n => .ok { fileId := some f, url := url, expiration := n * 1000 }

/-- What the Python method `CdnUrl.url` returns: either a string (the
`self._url` of the `expiration == -1` branch) or — as the final
`return self.url` actually does — the bound method object itself. -/
inductive UrlResult where
  | str (s : String)
  | boundMethod
deriving DecidableEq, Repr

/-- Embedding of `CdnUrl.url`.  `now` is `int(time.time() * 1000)` and
`resolver` abstracts `self.__cdnManager.get_audio_url` (a network call that
returns a fresh signed URL).  Note the source's final statement is
`return self.url` — the bound method, not `self._url` — and the refresh
branch assigns only `self._url`, leaving `self._expiration` unchanged. -/
def CdnUrl.urlCall (c : CdnUrl) (now : Int)
    (resolver : Option (List Nat) → String) : CdnUrl × UrlResult :=
  if c.expiration = -1 then (c, .str c.url)
  else if c.expiration ≤ now + 5 * 60 * 1000 then
    ({ c with url := resolver c.fileId }, .boundMethod)
  else (c, .boundMethod)

/-- Helper: a successful `set_url` stores exactly the given file id and URL,
and when the file id is absent the expiration is `-1`. -/
theorem set_url_ok_fields (fileId : Option (List Nat)) (url : String)
    (c : CdnUrl) (hok : set_url fileId url = .ok c) :
    c.fileId = fileId ∧ c.url = url ∧ (fileId = none → c.expiration = -1) := by
  cases fileId with
  | none =>
    simp only [set_url, Except.ok.injEq] at hok
    rw [← hok]
    exact ⟨rfl, rfl, fun _ => rfl⟩
  | some f =>
    simp only [set_url] at hok
    split at hok
    · split at hok
      · simp only [Except.ok.injEq] at hok
        rw [← hok]
        exact ⟨rfl, rfl, fun hn => by cases hn⟩
      · split at hok
        · cases hok
        · simp only [Except.ok.injEq] at hok
          rw [← hok]
          exact ⟨rfl, rfl, fun hn => by cases hn⟩
    · split at hok
      · simp only [Except.ok.injEq] at hok
        rw [← hok]
        exact ⟨rfl, rfl, fun hn => by cases hn⟩
      · split at hok
        · cases hok
        · simp only [Except.ok.injEq] at hok
          rw [← hok]
          exact ⟨rfl, rfl, fun hn => by cases hn⟩

/-- Claim C2 (divergence witness): a `CdnUrl` with a past, non-`-1`
expiration.  At a `now` far past the expiration, `url()` does invoke the
resolver and store the fresh URL, but it leaves `expiration` unchanged
(still `1000`) and returns the bound method object (`return self.url`), not
the fresh URL string. -/
theorem url_refresh_stale_expiration_bug :
    CdnUrl.urlCall
        { fileId := some [1], url := "https://old.example/audio",
          expiration := 1000 }
        1700000000000 (fun _ => "https://fresh.example/audio")
      = ({ fileId := some [1], url := "https://fresh.example/audio",
           expiration := 1000 },
         UrlResult.boundMethod) := rfl

/-- Claim C3 counterexample: a query with no usable `__token__` whose part
before the first `_` does not parse as an integer makes `set_url` raise
`ValueError` (the `try` only guards `.index("_")`), instead of returning
normally with expiration `never`. -/
theorem set_url_parse_failure_raises :
    set_url (some [1]) "https://cdn.example/file?abc_def"
      = .error "ValueError: invalid literal for int() with base 10" := rfl

/-- Claim C3 as amended: with a file id and no usable `__token__` parameter,
`set_url` takes the substring of the raw query before the first `_`; if it
parses as an integer it stores that integer times 1000; if the query has no
`_` it stores `-1` and returns normally; but if the substring fails to parse
as an integer, `set_url` raises `ValueError` instead of returning. -/
theorem set_url_no_token_spec (f : List Nat) (url : String)
    (htok : tokenString (urlQuery url) = "None".toList
      ∨ (tokenString (urlQuery url)).length = 0) :
    (partBeforeUnderscore (urlQuery url) = none →
      set_url (some f) url
        = .ok { fileId := some f, url := url, expiration := -1 })
    ∧ (∀ pre n, partBeforeUnderscore (urlQuery url) = some pre →
        pyInt pre = some n →
        set_url (some f) url
          = .ok { fileId := some f, url := url, expiration := n * 1000 })
    ∧ (∀ pre, partBeforeUnderscore (urlQuery url) = some pre →
        pyInt pre = none →
        set_url (some f) url
          = .error "ValueError: invalid literal for int() with base 10") := by
  have hcond : ¬ (tokenString (urlQuery url) ≠ "None".toList
      ∧ (tokenString (urlQuery url)).length ≠ 0) := by
    rcases htok with h | h <;> simp [h]
  refine ⟨?_, ?_, ?_⟩
  · intro hpre
    simp only [set_url, if_neg hcond, hpre]
  · intro pre n hpre hint
    simp only [set_url, if_neg hcond, hpre, hint]
  · intro pre hpre hint
    simp only [set_url, if_neg hcond, hpre, hint]

/-- Witness for the amended C3 at the spec's own example query
`1700000000_abcdef`. -/
theorem set_url_no_token_spec_witness :
    set_url (some [1]) "https://cdn.example/file?1700000000_abcdef"
      = .ok { fileId := some [1],
              url := "https://cdn.example/file?1700000000_abcdef",
              expiration := 1700000000 * 1000 } :=
  (set_url_no_token_spec [1] "https://cdn.example/file?1700000000_abcdef"
      (Or.inr rfl)).2.1 "1700000000".toList 1700000000 rfl rfl

/-- Claim C4 counterexample: a non-empty `__token__` whose only `exp=`
segment carries a non-integer value makes `set_url` raise `ValueError`
(`int(s[i + 1:])` is not guarded), instead of degrading to `-1`. -/
theorem set_url_token_bad_exp_raises :
    set_url (some [1]) "https://cdn.example/file?__token__=data~exp=abc"
      = .error "ValueError: invalid literal for int() with base 10" := rfl

/-- Claim C4 as amended: with a file id and a non-empty `__token__` value
(distinct from the literal string `None`), `set_url` splits the value on `~`
and looks for the first segment whose part before the first `=` is `exp`.
If that segment's value parses as an integer, expiration becomes that
integer times 1000; if no `exp=` segment exists at all, expiration becomes
`-1` without failing; but if the first `exp=` segment's value fails integer
parsing, `set_url` raises `ValueError`. -/
theorem set_url_token_spec (f : List Nat) (url : String)
    (htok : tokenString (urlQuery url) ≠ "None".toList
      ∧ (tokenString (urlQuery url)).length ≠ 0) :
    (findExp (splitChar '~' (tokenString (urlQuery url))) = none →
      set_url (some f) url
        = .ok { fileId := some f, url := url, expiration := -1 })
    ∧ (∀ v n, findExp (splitChar '~' (tokenString (urlQuery url))) = some v →
        pyInt v = some n →
        set_url (some f) url
          = .ok { fileId := some f, url := url, expiration := n * 1000 })
    ∧ (∀ v, findExp (splitChar '~' (tokenString (urlQuery url))) = some v →
        pyInt v = none →
        set_url (some f) url
          = .error "ValueError: invalid literal for int() with base 10") := by
  refine ⟨?_, ?_, ?_⟩
  · intro hfind
    simp only [set_url, if_pos htok, hfind]
  · intro v n hfind hint
    simp only [set_url, if_pos htok, hfind, hint]
  · intro v hfind hint
    simp only [set_url, if_pos htok, hfind, hint]

/-- Witness for the amended C4 at the spec's own example
`__token__=data~exp=1700000000~sig=abc`, yielding `1700000000 * 1000`. -/
theorem set_url_token_spec_witness :
    set_url (some [1])
        "https://cdn.example/file?__token__=data~exp=1700000000~sig=abc"
      = .ok { fileId := some [1],
              url := "https://cdn.example/file?__token__=data~exp=1700000000~sig=abc",
              expiration := 1700000000 * 1000 } :=
  (set_url_token_spec [1]
      "https://cdn.example/file?__token__=data~exp=1700000000~sig=abc"
      ⟨by decide, by decide⟩).2.1 "1700000000".toList 1700000000 rfl rfl

/-- Invariant of claim C10: a non-`never` expiration implies a present file
id. -/
def cdnInv (c : CdnUrl) : Prop := c.expiration ≠ -1 → c.fileId ≠ none

/-- Claim C10: `set_url` establishes the invariant (an absent file id forces
expiration `-1`), `url()` preserves it (it never writes `expiration` or
`fileId`), and therefore on the refresh path (expiration not `-1` and within
five minutes of `now`) the file id is present, so the resolver is never
invoked with a missing file id. -/
theorem cdn_url_expiration_invariant :
    (∀ fileId url c, set_url fileId url = .ok c → cdnInv c)
    ∧ (∀ (c : CdnUrl) (now : Int) (resolver : Option (List Nat) → String),
        cdnInv c → cdnInv (CdnUrl.urlCall c now resolver).1)
    ∧ (∀ (c : CdnUrl) (now : Int), cdnInv c →
        c.expiration ≠ -1 → c.expiration ≤ now + 5 * 60 * 1000 →
        c.fileId ≠ none) := by
  refine ⟨?_, ?_, ?_⟩
  · intro fileId url c hok hexp
    obtain ⟨hfid, _, hnone⟩ := set_url_ok_fields fileId url c hok
    cases fileId with
    | none => exact absurd (hnone rfl) hexp
    | some f =>
      rw [hfid]
      simp
  · intro c now resolver hinv
    unfold CdnUrl.urlCall
    split
    · exact hinv
    · split
      · intro hexp
        exact hinv hexp
      · exact hinv
  · intro c now hinv hexp _
    exact hinv hexp

/-- Witness for C10 at a concrete successfully constructed `CdnUrl`. -/
theorem cdn_url_expiration_invariant_witness :
    cdnInv { fileId := some [18], url := "https://x.example/?__token__=exp=17",
             expiration := 17 * 1000 } :=
  cdn_url_expiration_invariant.1 (some [18])
    "https://x.example/?__token__=exp=17" _ rfl

/-! ### CdnManager.Streamer and CdnManager.get_head
(`librespot/audio/cdn/CdnManager.py`) -/

/-- Embedding of
`self._chunks = int(math.ceil(self._size / ChannelManager.CHUNK_SIZE))` as
exact integer arithmetic: `(size + chunkSize - 1) / chunkSize` is the
ceiling of the rational quotient (proved in `chunk_count_ceil`); the float
quotient the source computes is exact for every realistic object size.
`ChannelManager.CHUNK_SIZE` lives outside the two source files, so the chunk
size is a parameter. -/
def chunkCount (size chunkSize : Nat) : Nat := (size + chunkSize - 1) / chunkSize

/-- Mutable state of a `Streamer` and of the chunk bookkeeping its
`InternalStream` exposes.  `notified` records `notify_chunk_available`
events and `decryptCalls` records invocations of
`self._audioDecrypt.decrypt_chunk`, so that "no notification" and "no
decryptor call" are observable. -/
structure StreamerState where
  closed : Bool
  size : Int
  chunks : Nat
  available : List Bool
  requested : List Bool
  buffer : List (List Nat)
  notified : List Nat
  decryptCalls : List (Nat × List Nat)
deriving DecidableEq, Repr

/-- Embedding of `Streamer.write_chunk`.  If the internal stream is closed
the method returns at once; otherwise it decrypts the payload, stores it in
the chunk buffer and notifies availability.  The `cached` argument only
feeds the debug log line and is omitted; `decrypt` abstracts
`self._audioDecrypt.decrypt_chunk`. -/
def write_chunk (decrypt : Nat → List Nat → List Nat) (st : StreamerState)
    (chunk : List Nat) (chunkIndex : Nat) : StreamerState :=
  if st.closed then st
  else
    { st with
      buffer := st.buffer.set chunkIndex (decrypt chunkIndex chunk),
      decryptCalls := st.decryptCalls ++ [(chunkIndex, chunk)],
      notified := st.notified ++ [chunkIndex] }

/-- Embedding of the sizing-probe part of `Streamer.__init__` after the
first ranged request: `contentRange` is `resp._headers.get("Content-Range")`
and `firstChunk` is `resp._buffer`.  A missing header raises `IOError`
before any chunk array exists.  `Utils.split` is repository code outside the
two source files; modelled from the spec: the header has the form
`start-end/total` and the total size is the part after the `/`
(`split[1]`, so a header without `/` raises `IndexError`).  Python would
accept a negative total; Content-Range totals are non-negative, and the
chunk count is computed on `total.toNat`. -/
def streamerInit (decrypt : Nat → List Nat → List Nat)
    (contentRange : Option (List Char)) (firstChunk : List Nat)
    (chunkSize : Nat) : Except String StreamerState :=
  match contentRange with
  | none => .error "IOError: Missing Content-Range header!"
  | some cr =>
    match (splitChar '/' cr).get? 1 with
    | none => .error "IndexError: list index out of range"
    | some totalStr =>
      match pyInt totalStr with
      | none => .error "ValueError: invalid literal for int() with base 10"
      | some total =>
        let chunks := chunkCount total.toNat chunkSize
        let st : StreamerState :=
          { closed := false
            size := total
            chunks := chunks
            available := List.replicate chunks false
            requested := (List.replicate chunks false).set 0 true
            buffer := List.replicate chunks []
            notified := []
            decryptCalls := [] }
        .ok (write_chunk decrypt st firstChunk 0)

/-- Embedding of one HTTP response as `CdnManager.get_head` sees it:
`requests` gives a status code and a body (`None` meaning no body at all;
an empty body is `some []`, which is not `None`). -/
structure HttpResponse where
  status_code : Int
  content : Option (List Nat)
deriving DecidableEq, Repr

/-- Embedding of `CdnManager.get_head` after the client call returned
`resp`: a non-200 status raises `IOError`, a `None` body raises `IOError`,
otherwise the body is returned.  (The session, user attribute lookup and
URL formatting only choose which request is made and are not part of the
response handling.) -/
def get_head (resp : HttpResponse) : Except String (List Nat) :=
  if resp.status_code ≠ 200 then .error "IOError: non-200 status"
  else
    match resp.content with
    | none => .error "IOError: Response body is empty!"
    | some body => .ok body

/-- Claim C5: the chunk count is exactly the ceiling of
`totalSize / CHUNK_SIZE`; in particular `totalSize = CHUNK_SIZE` gives one
chunk and `totalSize = CHUNK_SIZE + 1` gives two. -/
theorem chunk_count_ceil (size chunkSize : Nat) (h : 0 < chunkSize) :
    chunkCount size chunkSize = Nat.ceil ((size : ℚ) / (chunkSize : ℚ))
    ∧ chunkCount chunkSize chunkSize = 1
    ∧ chunkCount (chunkSize + 1) chunkSize = 2 := by
  have hq : (0 : ℚ) < (chunkSize : ℚ) := by exact_mod_cast h
  refine ⟨?_, ?_, ?_⟩
  · apply le_antisymm
    · have h1 : (size : ℚ) / chunkSize
          ≤ (Nat.ceil ((size : ℚ) / chunkSize) : ℚ) := Nat.le_ceil _
      rw [div_le_iff₀ hq] at h1
      have h3 : size ≤ chunkSize * Nat.ceil ((size : ℚ) / chunkSize) := by
        have : (size : ℚ) ≤ chunkSize * Nat.ceil ((size : ℚ) / chunkSize) := by
          linarith
        exact_mod_cast this
      have := (ceilDiv_le_iff_le_mul h).mpr h3
      rw [Nat.ceilDiv_eq_add_pred_div] at this
      exact this
    · apply Nat.ceil_le.mpr
      rw [div_le_iff₀ hq]
      have hsz : size ≤ chunkCount size chunkSize * chunkSize := by
        have hle := le_smul_ceilDiv h (b := size)
        rw [smul_eq_mul, Nat.ceilDiv_eq_add_pred_div] at hle
        rw [chunkCount, Nat.mul_comm]
        exact hle
      exact_mod_cast hsz
  · have hlo : 1 * chunkSize ≤ chunkSize + chunkSize - 1 := by omega
    have hhi : chunkSize + chunkSize - 1 < (1 + 1) * chunkSize := by omega
    exact Nat.div_eq_of_lt_le hlo hhi
  · have hlo : 2 * chunkSize ≤ chunkSize + 1 + chunkSize - 1 := by omega
    have hhi : chunkSize + 1 + chunkSize - 1 < (2 + 1) * chunkSize := by omega
    exact Nat.div_eq_of_lt_le hlo hhi

/-- Witness for C5 at the real `ChannelMananger.CHUNK_SIZE`-sized instance
`chunkSize = 131072`. -/
theorem chunk_count_ceil_witness :
    chunkCount 131072 131072 = 1 ∧ chunkCount 131073 131072 = 2 :=
  ⟨(chunk_count_ceil 0 131072 (by decide)).2.1,
   (chunk_count_ceil 0 131072 (by decide)).2.2⟩

/-- Claim C6: a sizing-probe response without a Content-Range header makes
`Streamer.__init__` raise before any chunk array or stream state is built
(the embedding returns `Except.error`, producing no `StreamerState` at
all); with the header present, any successfully built state has its size
parsed from the part of the header after the `/`. -/
theorem streamer_init_content_range (decrypt : Nat → List Nat → List Nat)
    (cr : Option (List Char)) (firstChunk : List Nat) (chunkSize : Nat) :
    (cr = none → streamerInit decrypt cr firstChunk chunkSize
      = .error "IOError: Missing Content-Range header!")
    ∧ (∀ s st, cr = some s →
        streamerInit decrypt cr firstChunk chunkSize = .ok st →
        ∃ totalStr n, (splitChar '/' s).get? 1 = some totalStr
          ∧ pyInt totalStr = some n ∧ st.size = n) := by
  constructor
  · intro hnone
    subst hnone
    rfl
  · intro s st hsome hok
    subst hsome
    simp only [streamerInit] at hok
    split at hok
    · cases hok
    · rename_i totalStr hts
      split at hok
      · cases hok
      · rename_i n hpy
        refine ⟨totalStr, n, hts, hpy, ?_⟩
        simp only [Except.ok.injEq] at hok
        rw [← hok]
        simp [write_chunk]

/-- Witness for C6: a response with no Content-Range header errors out. -/
theorem streamer_init_content_range_witness :
    streamerInit (fun _ d => d) none [1, 2, 3] 131072
      = .error "IOError: Missing Content-Range header!" :=
  (streamer_init_content_range (fun _ d => d) none [1, 2, 3] 131072).1 rfl

/-- Claim C8: once the internal stream is closed, `write_chunk` returns
immediately with the state untouched — no buffer mutation, no decryptor
invocation, no availability notification. -/
theorem write_chunk_after_close (decrypt : Nat → List Nat → List Nat)
    (st : StreamerState) (chunk : List Nat) (chunkIndex : Nat)
    (hclosed : st.closed = true) :
    write_chunk decrypt st chunk chunkIndex = st := by
  simp [write_chunk, hclosed]

/-- Witness for C8 at a concrete closed state. -/
theorem write_chunk_after_close_witness :
    write_chunk (fun _ d => d)
        { closed := true, size := 10, chunks := 1, available := [false],
          requested := [true], buffer := [[]], notified := [],
          decryptCalls := [] } [1, 2] 0
      = { closed := true, size := 10, chunks := 1, available := [false],
          requested := [true], buffer := [[]], notified := [],
          decryptCalls := [] } :=
  write_chunk_after_close (fun _ d => d) _ [1, 2] 0 rfl

/-- Claim C9 counterexample: a 200 response whose body is empty (but
present: `b""` is not `None`) is returned as-is — `get_head` only raises on
a `None` body, so "empty body ⇒ raises" fails. -/
theorem get_head_empty_body_ok :
    get_head { status_code := 200, content := some [] } = .ok [] := rfl

/-- Claim C9 as amended: `get_head` returns the response body exactly when
the status is 200 and the body is present (`content is not None`, even if
empty); a non-200 status or an absent body raises `IOError` to the
immediate caller. -/
theorem get_head_spec (resp : HttpResponse) :
    (∀ b, resp.status_code = 200 → resp.content = some b →
      get_head resp = .ok b)
    ∧ (resp.status_code ≠ 200 ∨ resp.content = none →
      ∃ e, get_head resp = .error e) := by
  constructor
  · intro b hstatus hbody
    simp [get_head, hstatus, hbody]
  · intro hbad
    rcases hbad with hstatus | hbody
    · exact ⟨"IOError: non-200 status", by simp [get_head, hstatus]⟩
    · by_cases hstatus : resp.status_code = 200
      · exact ⟨"IOError: Response body is empty!",
          by simp [get_head, hstatus, hbody]⟩
      · exact ⟨"IOError: non-200 status", by simp [get_head, hstatus]⟩

/-- Witness for the amended C9: a 404 response raises, a 200 response with
a present body returns it. -/
theorem get_head_spec_witness :
    (∃ e, get_head { status_code := 404, content := some [1] } = .error e)
    ∧ get_head { status_code := 200, content := some [7] } = .ok [7] :=
  ⟨(get_head_spec { status_code := 404, content := some [1] }).2
      (Or.inl (by decide)),
   (get_head_spec { status_code := 200, content := some [7] }).1 [7] rfl rfl⟩

end Librespot
